import Mathlib

/-!
# Shallow embedding of `aiosmtpd/handlers.py`

Python strings are modelled as `List Char` (`Str`); byte strings as
`List Nat` (each element a byte value).  The handlers' observable
behaviour (returned values, raised exceptions, log records, SMTP session
events, printed lines) is made explicit in the return types.  External
collaborators (the `smtplib` session, the `email` parsing library, the
standard streams) are modelled at their interfaces.
-/

/-- Python `str` modelled as a list of characters. -/
abbrev Str := List Char

/-- Python `'\n'.join` / `sep.join(xs)`: interleave `sep` between the
elements of `xs`. -/
def pyJoin (sep : Str) : List Str → Str
  | [] => []
  | [x] => x
  | x :: xs => x ++ sep ++ pyJoin sep xs

/-- Python `data.split('\n')`: split on every newline character; the empty
string splits to `[""]`, and a trailing newline yields a trailing empty
fragment. -/
def pySplitNL : Str → List Str
  | [] => [[]]
  | c :: rest =>
    match pySplitNL rest with
    | [] => [[]]
    | l :: ls => if c = '\n' then [] :: l :: ls else (c :: l) :: ls

/-- Python `data.splitlines()` restricted to the terminators that occur in
mail bodies (`\n`, `\r`, `\r\n`): each terminator ends a line, and a
trailing terminator does not produce a trailing empty line. -/
def pySplitlines : Str → List Str
  | [] => []
  | '\r' :: '\n' :: rest => [] :: pySplitlines rest
  | '\r' :: rest => [] :: pySplitlines rest
  | '\n' :: rest => [] :: pySplitlines rest
  | c :: rest =>
    match pySplitlines rest with
    | [] => [[c]]
    | l :: ls => (c :: l) :: ls

/-- The module constant `NEWLINE = '\n'`. -/
def NEWLINE : Str := ['\n']

/-- The module constant `COMMASPACE = ', '`. -/
def COMMASPACE : Str := [',', ' ']

/-- A transaction peer `(host, port)` as handed over by the protocol
layer. -/
structure Peer where
  host : Str
  port : Nat
deriving DecidableEq

/-- Python `str(peer)` on the `(host, port)` tuple, for host strings
without quote or escape characters: `"('host', port)"`. -/
def pyStrPeer (p : Peer) : Str :=
  ['(', '\''] ++ p.host ++ ['\'', ',', ' '] ++ (toString p.port).data ++ [')']

/- ## Proxy -/

namespace Proxy

/-- The line `'X-Peer: %s' % peer[0]` inserted by `Proxy.process_message`. -/
def xPeerLine (host : Str) : Str := ("X-Peer: ").data ++ host

/-- The scan `for line in lines: if not line: break; i += 1`: index of the
first empty line, or the number of lines when none is empty. -/
def firstBlankIdx : List Str → Nat
  | [] => 0
  | l :: ls => if l = [] then 0 else firstBlankIdx ls + 1

/-- Python `list.insert(i, x)`: insert before position `i`, appending when
`i` is at or past the end. -/
def pyInsert (i : Nat) (x : α) (xs : List α) : List α :=
  xs.take i ++ [x] ++ xs.drop i

/-- The line list built by `Proxy.process_message`: split the body on
newlines, scan for the first blank line, insert the `X-Peer` line there. -/
def insertXPeer (peerHost : Str) (data : Str) : List Str :=
  let lines := pySplitNL data
  pyInsert (firstBlankIdx lines) (xPeerLine peerHost) lines

/-- The body actually submitted downstream: the inserted line list rejoined
with `NEWLINE.join(lines)`. -/
def transformData (peerHost : Str) (data : Str) : Str :=
  pyJoin NEWLINE (insertXPeer peerHost data)

end Proxy

/-- A body whose every line is terminated with CRLF: each line followed by
`'\r','\n'`. -/
def crlfTerminate : List Str → Str
  | [] => []
  | l :: ls => l ++ '\r' :: '\n' :: crlfTerminate ls

/- ## The smtplib session interface and `Proxy._deliver` -/

/-- A refusal mapping, as returned by `smtplib.SMTP.sendmail` and built by
`Proxy._deliver`: recipient ↦ (error code, error message). -/
abbrev RefusalMap := List (Str × Int × Str)

namespace Proxy

/-- Outcome of `s.connect(hostname, port)` at the smtplib interface:
either the session is established, or an `OSError`/`SMTPException` is
raised, carrying an `smtp_code`/`smtp_error` attribute when present. -/
inductive ConnectResult where
  | ok : ConnectResult
  | failure (smtp_code : Option Int) (smtp_error : Option Str) : ConnectResult
deriving DecidableEq

/-- Outcome of `s.sendmail(mailfrom, rcpttos, data)` at the smtplib
interface: a refusal mapping on normal return (empty = all accepted,
non-empty = partial refusal), `SMTPRecipientsRefused` when every recipient
was refused, or another `OSError`/`SMTPException` with optional
`smtp_code`/`smtp_error` attributes. -/
inductive SendResult where
  | ok (refused : RefusalMap) : SendResult
  | recipientsRefused (recipients : RefusalMap) : SendResult
  | failure (smtp_code : Option Int) (smtp_error : Option Str) : SendResult
deriving DecidableEq

/-- Observable events on the outbound SMTP session: `.connect` records a
successfully established session, `.sendmail` the one submission,
`.quit` the graceful shutdown. -/
inductive SMTPEvent where
  | connect : SMTPEvent
  | sendmail (mailfrom : Str) (rcpttos : List Str) (data : Str) : SMTPEvent
  | quit : SMTPEvent
deriving DecidableEq

/-- The full-refusal map synthesized by `Proxy._deliver`'s
`except (OSError, smtplib.SMTPException)` clause: every recipient mapped to
`getattr(e, 'smtp_code', -1)` and `getattr(e, 'smtp_error', 'ignore')`. -/
def fullRefusal (rcpttos : List Str) (smtp_code : Option Int)
    (smtp_error : Option Str) : RefusalMap :=
  rcpttos.map fun r => (r, smtp_code.getD (-1), smtp_error.getD ("ignore").data)

/-- `Proxy._deliver`, with the downstream session's behaviour supplied as
oracles.  The source wraps `connect`/`sendmail` in
`try: ... finally: s.quit()` inside
`try: ... except SMTPRecipientsRefused ... except (OSError, SMTPException)`:
a connect failure is caught before any session exists (no events); once
connected, the `finally` runs `quit` on every path, and both exception
clauses convert the exception into the returned refusal mapping. -/
def _deliver (mailfrom : Str) (rcpttos : List Str) (data : Str)
    (cres : ConnectResult) (sres : SendResult) :
    RefusalMap × List SMTPEvent :=
  match cres with
  | .failure code msg => (fullRefusal rcpttos code msg, [])
  | .ok =>
    match sres with
    | .ok refused =>
      (refused, [.connect, .sendmail mailfrom rcpttos data, .quit])
    | .recipientsRefused m =>
      (m, [.connect, .sendmail mailfrom rcpttos data, .quit])
    | .failure code msg =>
      (fullRefusal rcpttos code msg,
        [.connect, .sendmail mailfrom rcpttos data, .quit])

/-- A record written to the `mail.debug` log. -/
inductive LogEntry where
  | refusalReport (refused : RefusalMap) : LogEntry
deriving DecidableEq

/-- Exceptions that could in principle escape `Proxy.process_message` to
the protocol layer. -/
inductive HandlerExc where
  | smtpError : HandlerExc
deriving DecidableEq

/-- `Proxy.process_message`: transform the body, deliver once, log the
refusal mapping, return normally.  The result records the outcome handed
back to the caller, the log records, and the session events. -/
def process_message (peer : Peer) (mailfrom : Str) (rcpttos : List Str)
    (data : Str) (cres : ConnectResult) (sres : SendResult) :
    Except HandlerExc Unit × List LogEntry × List SMTPEvent :=
  let data' := transformData peer.host data
  let (refused, events) := _deliver mailfrom rcpttos data' cres sres
  (.ok (), [.refusalReport refused], events)

/-- Whether a session event is a submission attempt. -/
def SMTPEvent.isSendmail : SMTPEvent → Bool
  | .sendmail _ _ _ => true
  | _ => false

/-- Whether a session event opens a session. -/
def SMTPEvent.isConnect : SMTPEvent → Bool
  | .connect => true
  | _ => false

/-- Whether a session event closes a session. -/
def SMTPEvent.isQuit : SMTPEvent → Bool
  | .quit => true
  | _ => false

end Proxy

/- ## The email library interface and the Message handlers -/

/-- A header-addressable message at the `email` library interface:
an ordered, multi-valued header list and a body. -/
structure EmailMessage where
  headers : List (Str × Str)
  body : Str
deriving DecidableEq

/-- Strip the spaces following the colon of a header line. -/
def stripLeadingSpace : Str → Str
  | ' ' :: rest => stripLeadingSpace rest
  | s => s

/-- Split a header line at its first colon into name and value. -/
def splitHeaderLine : Str → Str × Str
  | [] => ([], [])
  | ':' :: rest => ([], stripLeadingSpace rest)
  | c :: rest =>
    let (n, v) := splitHeaderLine rest
    (c :: n, v)

/-- Models the external `email.message_from_string` at its interface:
the header lines are the lines before the first blank line, each parsed at
its first colon; the remaining lines form the body. -/
def message_from_string (s : Str) : EmailMessage :=
  let ls := pySplitNL s
  { headers := (ls.takeWhile (fun l => !l.isEmpty)).map splitHeaderLine
    body := pyJoin NEWLINE ((ls.dropWhile (fun l => !l.isEmpty)).drop 1) }

/-- The decoding the `email` package applies to a fed byte string, at its
interface, restricted to ASCII byte values. -/
def asciiDecode (b : List Nat) : Str := b.map Char.ofNat

/-- Models the external `email.message_from_bytes` at its interface for
ASCII byte strings: decode the bytes, then parse as text. -/
def message_from_bytes (b : List Nat) : EmailMessage :=
  message_from_string (asciiDecode b)

/-- The byte-equivalent encoding of a text body (ASCII code points). -/
def asciiEncode (s : Str) : List Nat := s.map Char.toNat

/-- A transaction body as handed to a message handler: bytes when the
server did not decode the data, text when it did, or — defensively — a
value of any other type. -/
inductive MailData where
  | bytes (b : List Nat) : MailData
  | str (s : Str) : MailData
  | other : MailData
deriving DecidableEq

/-- Hard errors escaping `Message.process_message`: the assertion failure
raised when the body is neither bytes nor text. -/
inductive MessageError where
  | typeMismatch : MessageError
deriving DecidableEq

namespace Message

/-- `email.message.Message.__setitem__`: appends the (name, value) header
as an additional occurrence, never replacing existing headers. -/
def setItem (m : EmailMessage) (name value : Str) : EmailMessage :=
  { m with headers := m.headers ++ [(name, value)] }

/-- The three provenance-header assignments of `Message.process_message`:
`X-Peer` (string form of the peer), `X-MailFrom`, and `X-RcptTos`
(comma+space-joined recipients), in that order. -/
def addProvenance (m : EmailMessage) (peer : Peer) (mailfrom : Str)
    (rcpttos : List Str) : EmailMessage :=
  setItem
    (setItem
      (setItem m ("X-Peer").data (pyStrPeer peer))
      ("X-MailFrom").data mailfrom)
    ("X-RcptTos").data (pyJoin COMMASPACE rcpttos)

/-- `Message.process_message`: decode the body according to its type
(bytes via `message_from_bytes`, text via `message_from_string`, anything
else fails the `isinstance` assertion), add the three provenance headers,
and hand the result to `handle_message`.  The value returned here is the
message handed to that customization point. -/
def process_message (peer : Peer) (mailfrom : Str) (rcpttos : List Str)
    (data : MailData) : Except MessageError EmailMessage :=
  match data with
  | .bytes b => .ok (addProvenance (message_from_bytes b) peer mailfrom rcpttos)
  | .str s => .ok (addProvenance (message_from_string s) peer mailfrom rcpttos)
  | .other => .error .typeMismatch

end Message

namespace AsyncMessage

/-- `AsyncMessage.process_message`: the source duplicates the decode and
provenance steps of `Message.process_message` verbatim, awaiting
`handle_message` instead of calling it. -/
def process_message (peer : Peer) (mailfrom : Str) (rcpttos : List Str)
    (data : MailData) : Except MessageError EmailMessage :=
  match data with
  | .bytes b =>
    .ok (Message.addProvenance (message_from_bytes b) peer mailfrom rcpttos)
  | .str s =>
    .ok (Message.addProvenance (message_from_string s) peer mailfrom rcpttos)
  | .other => .error .typeMismatch

end AsyncMessage

/- ## Debugging -/

/-- The standard streams a `Debugging` handler can write to. -/
inductive OutStream where
  | stdout : OutStream
  | stderr : OutStream
deriving DecidableEq

/-- The `Debugging` handler: holds the output stream it writes to. -/
structure Debugging where
  stream : OutStream
deriving DecidableEq

/-- `_format_peer(peer)`: the repr-formatted `X-Peer` line, with the
peer's repr supplied as a string. -/
def formatPeer (peerRepr : Str) : Str := ("X-Peer: ").data ++ peerRepr

namespace Debugging

/-- `Debugging.__init__`: `sys.stdout` when no stream is given. -/
def init (stream : Option OutStream) : Debugging :=
  ⟨stream.getD OutStream.stdout⟩

/-- The usage error signalled through `parser.error`. -/
def usageMessage : Str := ("Debugging usage: [stdout|stderr]").data

/-- `Debugging.from_cli`: an empty argument list selects the default
stream; a single `stdout` or `stderr` argument selects that stream; any
other single argument and any longer list are usage errors. -/
def from_cli (args : List Str) : Except Str Debugging :=
  if args.length = 0 then .ok (init none)
  else if args.length > 1 then .error usageMessage
  else if args.head? = some ("stdout").data then .ok (init (some .stdout))
  else if args.head? = some ("stderr").data then .ok (init (some .stderr))
  else .error usageMessage

/-- The loop of `Debugging._print_message_content`: while still in the
header section, a blank line triggers printing the `X-Peer` repr line
before it; every line is then printed as-is. -/
def printContent (peerRepr : Str) : Bool → List Str → List Str
  | _, [] => []
  | inHeaders, line :: rest =>
    if inHeaders && line.isEmpty then
      formatPeer peerRepr :: line :: printContent peerRepr false rest
    else
      line :: printContent peerRepr inHeaders rest

/-- `Debugging._print_message_content` for a text body: iterate over
`data.splitlines()` starting inside the header section. -/
def _print_message_content (peerRepr : Str) (data : Str) : List Str :=
  printContent peerRepr true (pySplitlines data)

/-- `Debugging.process_message` for a text body: each element is the
argument of one `print` call (banner, optional option summaries, the
message content, end banner), all directed to the handler's stream. -/
def process_message (d : Debugging) (peerRepr : Str)
    (mailOptions rcptOptions : Option Str) (data : Str) :
    OutStream × List Str :=
  (d.stream,
    ("---------- MESSAGE FOLLOWS ----------").data ::
      ((match mailOptions with
        | some o => [("mail options: ").data ++ o]
        | none => []) ++
       (match rcptOptions with
        | some o => [("rcpt options: ").data ++ o ++ ['\n']]
        | none => []) ++
       _print_message_content peerRepr data ++
       [("------------ END MESSAGE ------------").data]))

end Debugging

/- ## Theorems -/

theorem pySplitNL_ne_nil (s : Str) : pySplitNL s ≠ [] := by
  cases s with
  | nil => simp [pySplitNL]
  | cons c rest =>
    simp only [pySplitNL]
    cases pySplitNL rest with
    | nil => simp
    | cons l ls =>
      by_cases h : c = '\n' <;> simp [h]

theorem pySplitNL_append_newline (a rest : Str) (h : '\n' ∉ a) :
    pySplitNL (a ++ '\n' :: rest) = a :: pySplitNL rest := by
  induction a with
  | nil =>
    simp only [List.nil_append, pySplitNL]
    cases hr : pySplitNL rest with
    | nil => exact absurd hr (pySplitNL_ne_nil rest)
    | cons l ls => simp
  | cons c a ih =>
    have hc : c ≠ '\n' := fun he => h (by simp [he])
    have ha : '\n' ∉ a := fun he => h (by simp [he])
    simp only [List.cons_append, pySplitNL, List.append_eq, ih ha, if_neg hc]

theorem pySplitNL_crlfTerminate (ls : List Str) (h : ∀ l ∈ ls, '\n' ∉ l) :
    pySplitNL (crlfTerminate ls) = ls.map (· ++ ['\r']) ++ [[]] := by
  induction ls with
  | nil => rfl
  | cons l ls ih =>
    have hl : '\n' ∉ l ++ ['\r'] := by
      intro hm
      rcases List.mem_append.1 hm with hm | hm
      · exact h l (by simp) hm
      · simp at hm
    have : crlfTerminate (l :: ls) = (l ++ ['\r']) ++ '\n' :: crlfTerminate ls := by
      simp [crlfTerminate]
    rw [this, pySplitNL_append_newline _ _ hl,
      ih (fun x hx => h x (by simp [hx]))]
    simp

theorem pyJoin_cons_of_ne_nil (sep x : Str) (xs : List Str) (h : xs ≠ []) :
    pyJoin sep (x :: xs) = x ++ sep ++ pyJoin sep xs := by
  cases xs with
  | nil => exact absurd rfl h
  | cons y ys => rfl

theorem pyJoin_crlf_xpeer (peerHost : Str) (ls : List Str) :
    pyJoin NEWLINE (ls.map (· ++ ['\r']) ++ [Proxy.xPeerLine peerHost, []]) =
      crlfTerminate ls ++ Proxy.xPeerLine peerHost ++ ['\n'] := by
  induction ls with
  | nil => simp [pyJoin, crlfTerminate, NEWLINE]
  | cons l ls ih =>
    have hne : ls.map (· ++ ['\r']) ++ [Proxy.xPeerLine peerHost, []] ≠ [] := by
      simp
    have hstep : (l :: ls).map (· ++ ['\r']) ++ [Proxy.xPeerLine peerHost, []] =
        (l ++ ['\r']) :: (ls.map (· ++ ['\r']) ++ [Proxy.xPeerLine peerHost, []]) := by
      simp
    rw [hstep, pyJoin_cons_of_ne_nil _ _ _ hne, ih]
    simp [crlfTerminate, NEWLINE]

theorem firstBlankIdx_eq_of_first (ls : List Str) (k : Nat)
    (h1 : ls.get? k = some [])
    (h2 : ∀ j, j < k → ls.get? j ≠ some []) :
    Proxy.firstBlankIdx ls = k := by
  induction ls generalizing k with
  | nil => simp at h1
  | cons l ls ih =>
    cases k with
    | zero =>
      simp at h1
      simp [Proxy.firstBlankIdx, h1]
    | succ k =>
      have hl : l ≠ [] := by
        intro he
        exact h2 0 (Nat.succ_pos _) (by simp [he])
      simp only [Proxy.firstBlankIdx, if_neg hl]
      have := ih k (by simpa using h1)
        (fun j hj => by
          have := h2 (j + 1) (Nat.succ_lt_succ hj)
          simpa using this)
      omega

theorem firstBlankIdx_eq_length (ls : List Str)
    (h : ∀ l ∈ ls, l ≠ []) :
    Proxy.firstBlankIdx ls = ls.length := by
  induction ls with
  | nil => rfl
  | cons l ls ih =>
    have hl : l ≠ [] := h l (by simp)
    simp [Proxy.firstBlankIdx, hl, ih (fun x hx => h x (by simp [hx]))]

/-- **C1.** `Proxy.process_message` builds its outgoing body from the split
lines: when the body has a first blank line at index `k`, the `X-Peer`
line is inserted immediately before it (so the result is the prefix before
the blank, the single new line, then the rest, blank first) and nowhere
else; when no line is blank, the `X-Peer` line is appended as the last
line; in both cases the submitted body is the lines rejoined with the
newline separator. -/
theorem proxy_inserts_xpeer_before_first_blank (peerHost : Str) (data : Str) :
    (∀ k, (pySplitNL data).get? k = some [] →
      (∀ j, j < k → (pySplitNL data).get? j ≠ some []) →
      Proxy.insertXPeer peerHost data =
        (pySplitNL data).take k ++ [Proxy.xPeerLine peerHost] ++
          (pySplitNL data).drop k) ∧
    ((∀ l ∈ pySplitNL data, l ≠ []) →
      Proxy.insertXPeer peerHost data =
        pySplitNL data ++ [Proxy.xPeerLine peerHost]) ∧
    Proxy.transformData peerHost data =
      pyJoin NEWLINE (Proxy.insertXPeer peerHost data) := by
  refine ⟨?_, ?_, rfl⟩
  · intro k h1 h2
    rw [Proxy.insertXPeer, Proxy.pyInsert,
      firstBlankIdx_eq_of_first (pySplitNL data) k h1 h2]
  · intro h
    rw [Proxy.insertXPeer, Proxy.pyInsert,
      firstBlankIdx_eq_length (pySplitNL data) h]
    simp

/-- Witness for C1 at a concrete body with a blank line and one without. -/
theorem proxy_inserts_xpeer_before_first_blank_witness :
    Proxy.insertXPeer ("h").data ("A: b\n\nx").data =
      [("A: b").data, ("X-Peer: h").data, [], ("x").data] ∧
    Proxy.insertXPeer ("h").data ("A: b").data =
      [("A: b").data, ("X-Peer: h").data] := by
  constructor
  · have := (proxy_inserts_xpeer_before_first_blank ("h").data
      ("A: b\n\nx").data).1 1 (by decide) (by decide)
    rw [this]; decide
  · have := (proxy_inserts_xpeer_before_first_blank ("h").data
      ("A: b").data).2.1 (by decide)
    rw [this]; decide

/-- **C9, counterexample.** For the CRLF-terminated body
`"A: b\r\n\r\nx\r\n"` the blank-line scan does classify a line as blank:
the trailing empty fragment produced by the final CRLF.  Consequently the
`X-Peer` line is not appended as the last element of the line list. -/
theorem proxy_crlf_counterexample :
    ("A: b\r\n\r\nx\r\n").data =
      crlfTerminate [("A: b").data, [], ("x").data] ∧
    [] ∈ pySplitNL ("A: b\r\n\r\nx\r\n").data ∧
    Proxy.insertXPeer ("h").data ("A: b\r\n\r\nx\r\n").data ≠
      pySplitNL ("A: b\r\n\r\nx\r\n").data ++
        [Proxy.xPeerLine ("h").data] := by
  refine ⟨by decide, by decide, by decide⟩

theorem firstBlankIdx_append_blank (xs : List Str)
    (h : ∀ x ∈ xs, x ≠ []) :
    Proxy.firstBlankIdx (xs ++ [[]]) = xs.length := by
  induction xs with
  | nil => rfl
  | cons x xs ih =>
    have hx : x ≠ [] := h x (by simp)
    simp [Proxy.firstBlankIdx, hx, ih (fun y hy => h y (by simp [hy]))]

/-- **C9, amended.** For a body whose every line (each free of LF) is
terminated with CRLF, splitting on LF leaves a carriage return on every
content line, so no content line — in particular not the header/body
separator — is blank; the single blank fragment is the trailing empty
string after the final CRLF, so the `X-Peer` line lands after all content
lines (immediately before that trailing fragment), and the rejoined body
is the original body followed by the `X-Peer` line and a bare LF. -/
theorem proxy_crlf_appends_after_content (peerHost : Str) (ls : List Str)
    (h : ∀ l ∈ ls, '\n' ∉ l) :
    pySplitNL (crlfTerminate ls) = ls.map (· ++ ['\r']) ++ [[]] ∧
    (∀ i, i < ls.length →
      (pySplitNL (crlfTerminate ls)).get? i ≠ some []) ∧
    Proxy.insertXPeer peerHost (crlfTerminate ls) =
      ls.map (· ++ ['\r']) ++ [Proxy.xPeerLine peerHost, []] ∧
    Proxy.transformData peerHost (crlfTerminate ls) =
      crlfTerminate ls ++ Proxy.xPeerLine peerHost ++ ['\n'] := by
  have hsplit := pySplitNL_crlfTerminate ls h
  have hnb : ∀ x ∈ ls.map (· ++ ['\r']), x ≠ [] := by
    intro x hx
    rcases List.mem_map.1 hx with ⟨l, _, rfl⟩
    simp
  have hidx : Proxy.firstBlankIdx (pySplitNL (crlfTerminate ls)) = ls.length := by
    rw [hsplit]
    have := firstBlankIdx_append_blank (ls.map (· ++ ['\r'])) hnb
    simpa using this
  have hins : Proxy.insertXPeer peerHost (crlfTerminate ls) =
      ls.map (· ++ ['\r']) ++ [Proxy.xPeerLine peerHost, []] := by
    rw [Proxy.insertXPeer, Proxy.pyInsert, hidx, hsplit]
    have hlen : ls.length = (ls.map (· ++ ['\r'])).length := by simp
    rw [hlen, List.take_left, List.drop_left]
    simp
  refine ⟨hsplit, ?_, hins, ?_⟩
  · intro i hi hcon
    rw [hsplit] at hcon
    have : (ls.map (· ++ ['\r']) ++ [[]]).get? i =
        (ls.map (· ++ ['\r'])).get? i := by
      rw [List.get?_append]
      simpa using hi
    rw [this] at hcon
    rcases List.get?_eq_some.1 hcon with ⟨hlt, hval⟩
    have := hnb _ (List.get_mem _ _ hlt)
    exact this hval
  · rw [Proxy.transformData, hins]
    exact pyJoin_crlf_xpeer peerHost ls

/-- Witness for the amended C9 at a concrete CRLF body. -/
theorem proxy_crlf_appends_after_content_witness :
    Proxy.transformData ("h").data
        (crlfTerminate [("A: b").data, [], ("x").data]) =
      crlfTerminate [("A: b").data, [], ("x").data] ++
        Proxy.xPeerLine ("h").data ++ ['\n'] := by
  exact (proxy_crlf_appends_after_content ("h").data
    [("A: b").data, [], ("x").data] (by decide)).2.2.2

/-- **C3.** For every transaction and every outcome of the downstream
delivery attempt — full acceptance, partial refusal, all-recipients
refusal, or transport/protocol failure — `Proxy.process_message` returns
normally to its caller, the refusal mapping is emitted exactly once as a
log record, and delivery is attempted exactly once (never retried). -/
theorem proxy_refusals_logged_never_raised (peer : Peer) (mailfrom : Str)
    (rcpttos : List Str) (data : Str) (cres : Proxy.ConnectResult)
    (sres : Proxy.SendResult) :
    (Proxy.process_message peer mailfrom rcpttos data cres sres).1 =
      Except.ok () ∧
    (Proxy.process_message peer mailfrom rcpttos data cres sres).2.1 =
      [Proxy.LogEntry.refusalReport
        (Proxy._deliver mailfrom rcpttos
          (Proxy.transformData peer.host data) cres sres).1] ∧
    ((Proxy.process_message peer mailfrom rcpttos data cres sres).2.2.countP
      (fun e => e.isSendmail)) ≤ 1 := by
  cases cres <;> cases sres <;>
    simp [Proxy.process_message, Proxy._deliver, Proxy.SMTPEvent.isSendmail]

/-- **C4.** When the delivery attempt ends in a transport or
protocol-level failure (on connect or during submission, other than an
all-recipients refusal), the refusal mapping maps every original recipient
to the failure's code when it carries one and the sentinel `-1` otherwise,
paired with the failure's message when present and the placeholder
`'ignore'` otherwise. -/
theorem proxy_transport_failure_refuses_all (mailfrom : Str)
    (rcpttos : List Str) (data : Str) (code : Option Int) (msg : Option Str)
    (sres : Proxy.SendResult) :
    (Proxy._deliver mailfrom rcpttos data .ok (.failure code msg)).1 =
      rcpttos.map (fun r => (r, code.getD (-1), msg.getD ("ignore").data)) ∧
    (Proxy._deliver mailfrom rcpttos data (.failure code msg) sres).1 =
      rcpttos.map (fun r => (r, code.getD (-1), msg.getD ("ignore").data)) ∧
    (∀ r ∈ rcpttos,
      (r, code.getD (-1), msg.getD ("ignore").data) ∈
        (Proxy._deliver mailfrom rcpttos data .ok (.failure code msg)).1) := by
  refine ⟨rfl, by cases sres <;> rfl, ?_⟩
  intro r hr
  simp [Proxy._deliver, Proxy.fullRefusal]
  exact hr

/-- Witness for C4 at a concrete recipient list and a code-less failure. -/
theorem proxy_transport_failure_refuses_all_witness :
    (("a@x").data, (-1 : Int), ("ignore").data) ∈
      (Proxy._deliver ("s@x").data [("a@x").data, ("b@x").data] ("m").data
        .ok (.failure none none)).1 :=
  (proxy_transport_failure_refuses_all ("s@x").data
    [("a@x").data, ("b@x").data] ("m").data none none
    (.ok [])).2.2 ("a@x").data (by decide)

/-- **C6.** On every execution of `Proxy._deliver` the session events are
balanced — every successfully opened session is closed by `quit` — and
whenever the session is established (whatever the submission outcome:
success, partial or full refusal, or transport failure) the event trace is
exactly connect, one submission, then the graceful `quit` before the
operation returns. -/
theorem proxy_deliver_releases_session (mailfrom : Str) (rcpttos : List Str)
    (data : Str) (cres : Proxy.ConnectResult) (sres : Proxy.SendResult) :
    ((Proxy._deliver mailfrom rcpttos data cres sres).2.countP
        (fun e => e.isQuit) =
      (Proxy._deliver mailfrom rcpttos data cres sres).2.countP
        (fun e => e.isConnect)) ∧
    (cres = .ok →
      (Proxy._deliver mailfrom rcpttos data cres sres).2 =
        [.connect, .sendmail mailfrom rcpttos data, .quit]) := by
  cases cres <;> cases sres <;>
    simp [Proxy._deliver, Proxy.SMTPEvent.isQuit, Proxy.SMTPEvent.isConnect]

/-- Witness for C6 on an established session with a transport failure. -/
theorem proxy_deliver_releases_session_witness :
    (Proxy._deliver ("s@x").data [("a@x").data] ("m").data
        .ok (.failure none none)).2 =
      [.connect, .sendmail ("s@x").data [("a@x").data] ("m").data, .quit] :=
  (proxy_deliver_releases_session ("s@x").data [("a@x").data] ("m").data
    .ok (.failure none none)).2 rfl

/-- **C2.** `Message.process_message` and `AsyncMessage.process_message`
extend the decoded message's header list by exactly the three provenance
headers — `X-Peer` (string form of the peer), `X-MailFrom` (envelope
sender), `X-RcptTos` (comma+space-joined recipients) — appended after all
original headers, so identically-named headers already present in the
decoded body and every other original header survive unmodified, for text
and byte bodies alike. -/
theorem message_appends_exactly_three_provenance_headers (peer : Peer)
    (mailfrom : Str) (rcpttos : List Str) (s : Str) (b : List Nat) :
    (Message.process_message peer mailfrom rcpttos (.str s) =
      .ok { message_from_string s with
            headers := (message_from_string s).headers ++
              [(("X-Peer").data, pyStrPeer peer),
               (("X-MailFrom").data, mailfrom),
               (("X-RcptTos").data, pyJoin COMMASPACE rcpttos)] }) ∧
    (Message.process_message peer mailfrom rcpttos (.bytes b) =
      .ok { message_from_bytes b with
            headers := (message_from_bytes b).headers ++
              [(("X-Peer").data, pyStrPeer peer),
               (("X-MailFrom").data, mailfrom),
               (("X-RcptTos").data, pyJoin COMMASPACE rcpttos)] }) ∧
    (AsyncMessage.process_message peer mailfrom rcpttos (.str s) =
      Message.process_message peer mailfrom rcpttos (.str s)) ∧
    (AsyncMessage.process_message peer mailfrom rcpttos (.bytes b) =
      Message.process_message peer mailfrom rcpttos (.bytes b)) := by
  refine ⟨?_, ?_, rfl, rfl⟩ <;>
    simp [Message.process_message, Message.addProvenance, Message.setItem]

/-- **C5.** `Message.process_message` dispatches on the body's type: a
byte body is decoded through the bytes decode path, a text body through
the text decode path, and any other body fails with the hard type-mismatch
error, which escapes the handler. -/
theorem message_decode_dispatch (peer : Peer) (mailfrom : Str)
    (rcpttos : List Str) (s : Str) (b : List Nat) :
    Message.process_message peer mailfrom rcpttos (.bytes b) =
      .ok (Message.addProvenance (message_from_bytes b) peer mailfrom rcpttos) ∧
    Message.process_message peer mailfrom rcpttos (.str s) =
      .ok (Message.addProvenance (message_from_string s) peer mailfrom rcpttos) ∧
    Message.process_message peer mailfrom rcpttos .other =
      .error .typeMismatch :=
  ⟨rfl, rfl, rfl⟩

/-- **C7.** For every ASCII message content, feeding `Message` the text
body and feeding it the byte-equivalent encoding of the same content
produce structurally equal messages: same headers (provenance headers
included) and same body. -/
theorem message_text_and_bytes_paths_agree (peer : Peer) (mailfrom : Str)
    (rcpttos : List Str) (s : Str) (h : ∀ c ∈ s, c.toNat < 128) :
    Message.process_message peer mailfrom rcpttos (.bytes (asciiEncode s)) =
      Message.process_message peer mailfrom rcpttos (.str s) := by
  have hdec : asciiDecode (asciiEncode s) = s := by
    rw [asciiDecode, asciiEncode, List.map_map]
    have : (Char.ofNat ∘ Char.toNat) = id := by
      funext c
      exact Char.ofNat_toNat c
    rw [this, List.map_id]
  rw [Message.process_message, Message.process_message,
    message_from_bytes, hdec]

/-- Witness for C7 at a concrete ASCII message. -/
theorem message_text_and_bytes_paths_agree_witness :
    Message.process_message ⟨("p").data, 7⟩ ("s@x").data [("a@x").data]
        (.bytes (asciiEncode ("A: b\n\nhi").data)) =
      Message.process_message ⟨("p").data, 7⟩ ("s@x").data [("a@x").data]
        (.str ("A: b\n\nhi").data) :=
  message_text_and_bytes_paths_agree ⟨("p").data, 7⟩ ("s@x").data
    [("a@x").data] ("A: b\n\nhi").data (by decide)

/-- **C8.** `Debugging.from_cli` succeeds on `["stdout"]` with a handler
whose every `process_message` output goes to standard output, succeeds on
`["stderr"]` writing to standard error, fails with the usage error on any
single unrecognized argument, and fails with the usage error on every
argument list of more than one argument. -/
theorem debugging_from_cli_selects_stream :
    Debugging.from_cli [("stdout").data] = .ok ⟨OutStream.stdout⟩ ∧
    (∀ peerRepr mo ro data,
      (Debugging.process_message ⟨OutStream.stdout⟩ peerRepr mo ro data).1 =
        OutStream.stdout) ∧
    Debugging.from_cli [("stderr").data] = .ok ⟨OutStream.stderr⟩ ∧
    (∀ peerRepr mo ro data,
      (Debugging.process_message ⟨OutStream.stderr⟩ peerRepr mo ro data).1 =
        OutStream.stderr) ∧
    (∀ a : Str, a ≠ ("stdout").data → a ≠ ("stderr").data →
      Debugging.from_cli [a] = .error Debugging.usageMessage) ∧
    (∀ args : List Str, 1 < args.length →
      Debugging.from_cli args = .error Debugging.usageMessage) := by
  refine ⟨rfl, fun _ _ _ _ => rfl, rfl, fun _ _ _ _ => rfl, ?_, ?_⟩
  · intro a ha hb
    simp [Debugging.from_cli, ha, hb]
  · intro args hlen
    rw [Debugging.from_cli, if_neg (by omega), if_pos hlen]

/-- Witness for C8 on the unrecognized argument `"bogus"` and the
two-argument list `["stdout", "stderr"]`. -/
theorem debugging_from_cli_selects_stream_witness :
    Debugging.from_cli [("bogus").data] = .error Debugging.usageMessage ∧
    Debugging.from_cli [("stdout").data, ("stderr").data] =
      .error Debugging.usageMessage :=
  ⟨debugging_from_cli_selects_stream.2.2.2.2.1 ("bogus").data
      (by decide) (by decide),
    debugging_from_cli_selects_stream.2.2.2.2.2
      [("stdout").data, ("stderr").data] (by decide)⟩

theorem printContent_no_blank (peerRepr : Str) (b : Bool) (lines : List Str)
    (h : ∀ l ∈ lines, l ≠ []) :
    Debugging.printContent peerRepr b lines = lines := by
  induction lines generalizing b with
  | nil => rfl
  | cons l ls ih =>
    have hl : l.isEmpty = false := by
      cases l with
      | nil => exact absurd rfl (h [] (by simp))
      | cons c cs => rfl
    simp [Debugging.printContent, hl, ih b (fun x hx => h x (by simp [hx]))]

/-- **C10.** For a body with no blank line (as split by `splitlines`),
`Debugging._print_message_content` emits the body's lines unchanged — in
particular no synthetic `X-Peer` line — whereas `Proxy` in the analogous
situation (no blank line in the newline split) appends its `X-Peer` line
as the last line. -/
theorem debugging_no_blank_no_xpeer (peerRepr peerHost : Str) (data : Str) :
    ((∀ l ∈ pySplitlines data, l ≠ []) →
      Debugging._print_message_content peerRepr data = pySplitlines data) ∧
    ((∀ l ∈ pySplitNL data, l ≠ []) →
      Proxy.insertXPeer peerHost data =
        pySplitNL data ++ [Proxy.xPeerLine peerHost]) := by
  constructor
  · intro h
    exact printContent_no_blank peerRepr true (pySplitlines data) h
  · intro h
    rw [Proxy.insertXPeer, Proxy.pyInsert,
      firstBlankIdx_eq_length (pySplitNL data) h]
    simp

/-- Witness for C10 at the blank-line-free body `"a: b"`. -/
theorem debugging_no_blank_no_xpeer_witness :
    Debugging._print_message_content ("r").data ("a: b").data =
      pySplitlines ("a: b").data ∧
    Proxy.insertXPeer ("h").data ("a: b").data =
      pySplitNL ("a: b").data ++ [Proxy.xPeerLine ("h").data] :=
  ⟨(debugging_no_blank_no_xpeer ("r").data ("h").data ("a: b").data).1
      (by decide),
    (debugging_no_blank_no_xpeer ("r").data ("h").data ("a: b").data).2
      (by decide)⟩
